import Mathlib

/-!
Verification of the PromptAudit evaluation core against its specification.

The development shallowly embeds the verdict parser
(`evaluation/label_parser.py`), the metrics accumulator
(`evaluation/metrics.py`) and the per-run sample loop of the experiment
runner (`core/runner.py`).  Python strings are modelled as `List Char`
(ASCII semantics for `isalpha`, `lower`, whitespace), Python floats as `ℚ`.
-/

namespace PromptAudit

/-! ## Python string primitives -/

/-- Characters treated as whitespace by Python `str.strip` / `str.split`. -/
def pyIsSpace (c : Char) : Bool :=
  c = ' ' || c = '\t' || c = '\n' || c = '\r' || c = Char.ofNat 11 || c = Char.ofNat 12

/-- Python `str.strip()`: remove leading and trailing whitespace. -/
def pyStrip (s : List Char) : List Char :=
  ((s.dropWhile pyIsSpace).reverse.dropWhile pyIsSpace).reverse

/-- Python `str.rstrip()`: remove trailing whitespace. -/
def pyRstrip (s : List Char) : List Char :=
  (s.reverse.dropWhile pyIsSpace).reverse

/-- Python `str.lower()` (ASCII). -/
def pyLower (s : List Char) : List Char :=
  s.map Char.toLower

/-- Helper for `str.splitlines`: accumulate the current line (reversed). -/
def splitLinesAux : List Char → List Char → List (List Char)
  | [], cur => [cur.reverse]
  | c :: cs, cur =>
    if c = '\n' then cur.reverse :: splitLinesAux cs []
    else splitLinesAux cs (c :: cur)

/-- Python `str.splitlines()` modelled as splitting on the newline
character.  (It may produce extra empty lines compared to Python; the
parser filters empty lines immediately afterwards, so this is harmless.) -/
def splitLinesPy (s : List Char) : List (List Char) :=
  splitLinesAux s []

/-- Helper for whitespace `str.split()`: accumulate the current word
(reversed). -/
def pySplitWsAux : List Char → List Char → List (List Char)
  | [], cur => if cur = [] then [] else [cur.reverse]
  | c :: cs, cur =>
    if pyIsSpace c then
      if cur = [] then pySplitWsAux cs [] else cur.reverse :: pySplitWsAux cs []
    else pySplitWsAux cs (c :: cur)

/-- Python `str.split()` with no argument: split on whitespace runs,
producing no empty words. -/
def pySplitWs (s : List Char) : List (List Char) :=
  pySplitWsAux s []

/-! ## Regex primitives used by the parser

The parser uses `re` only through word-boundary searches
(`\bword\s+word\b` shapes) and one fully anchored line pattern; both are
embedded directly. -/

/-- Regex word character (`\w`): letter, digit or underscore. -/
def isWordChar (c : Char) : Bool :=
  c.isAlpha || c.isDigit || c = '_'

/-- Word boundary (`\b`) to the right of a word: end of text or a non-word
character. -/
def boundaryAfter : List Char → Bool
  | [] => true
  | c :: _ => !isWordChar c

/-- Match a sequence of words separated by one-or-more whitespace
(`w1\s+w2\s+...`) at the start of `s`, requiring a word boundary after the
final word. -/
def matchWordsAt : List (List Char) → List Char → Bool
  | [], s => boundaryAfter s
  | [w], s => w.isPrefixOf s && boundaryAfter (s.drop w.length)
  | w :: rest, s =>
    w.isPrefixOf s &&
      (match s.drop w.length with
       | [] => false
       | c :: cs => pyIsSpace c && matchWordsAt rest ((c :: cs).dropWhile pyIsSpace))

/-- Scan every position of `s` for a boundary-preceded match of the word
sequence; `bnd` records whether the current position follows a non-word
character (or is the start of the text). -/
def searchWordsFrom (ws : List (List Char)) : List Char → Bool → Bool
  | [], bnd => bnd && matchWordsAt ws []
  | c :: cs, bnd => (bnd && matchWordsAt ws (c :: cs)) || searchWordsFrom ws cs (!isWordChar c)

/-- Embedding of `re.search(r"\bw1\s+w2...\b", s)` for a word-sequence
pattern: true iff the words occur somewhere in `s` with word boundaries on
both sides. -/
def searchWords (ws : List (List Char)) (s : List Char) : Bool :=
  searchWordsFrom ws s true

/-! ## Verdict parser (`evaluation/label_parser.py`) -/

/-- Tier 1 of `parse_verdict`: split the first non-empty line on
whitespace; if it is a single word whose alphabetic characters, lowercased,
spell `safe` or `vulnerable`, that token is the verdict. -/
def tier1Result (first_line : List Char) : Option (List Char) :=
  let parts := pySplitWs first_line
  match parts with
  | [] => none
  | p0 :: _ =>
    let token := (p0.filter Char.isAlpha).map Char.toLower
    if parts.length = 1 ∧ (token = "safe".data ∨ token = "vulnerable".data) then
      some token
    else none

/-- Try to match the tier-2 pattern for one keyword alternative and one
label alternative: `keyword\s*:\s*(label)\s*[.!]?\s*$` on the lowered line. -/
def tryLabel (lab r3 : List Char) : Option (List Char) :=
  if lab.isPrefixOf r3 then
    let r4 := (r3.drop lab.length).dropWhile pyIsSpace
    let r5 :=
      match r4 with
      | '.' :: t => t
      | '!' :: t => t
      | _ => r4
    if r5.dropWhile pyIsSpace = [] then some lab else none
  else none

/-- Try one keyword alternative of the tier-2 verdict pattern against a
lowered line. -/
def tryKeyword (kw low : List Char) : Option (List Char) :=
  if kw.isPrefixOf low then
    match (low.drop kw.length).dropWhile pyIsSpace with
    | ':' :: r2 =>
      let r3 := r2.dropWhile pyIsSpace
      tryLabel "safe".data r3 <|> tryLabel "vulnerable".data r3
    | _ => none
  else none

/-- Embedding of the anchored, case-insensitive tier-2 regex
`^(final answer|answer|classification|verdict|label)\s*:\s*(safe|vulnerable)\s*[.!]?\s*$`
applied to a single (already stripped) line; returns the lowered label. -/
def matchVerdictLine (ln : List Char) : Option (List Char) :=
  let low := pyLower ln
  tryKeyword "final answer".data low <|> tryKeyword "answer".data low <|>
    tryKeyword "classification".data low <|> tryKeyword "verdict".data low <|>
      tryKeyword "label".data low

/-- Tier 2 scan: first matching line of the given list (the caller passes
the reversed line list, matching the bottom-up scan in the source). -/
def tier2Scan : List (List Char) → Option (List Char)
  | [] => none
  | ln :: rest =>
    match matchVerdictLine ln with
    | some lab => some lab
    | none => tier2Scan rest

/-- Tier 3 cue `has_not_safe`. -/
def hasNotSafe (lowered : List Char) : Bool :=
  searchWords ["not".data, "safe".data] lowered

/-- Tier 3 cue `has_unsafe`. -/
def hasUnsafe (lowered : List Char) : Bool :=
  searchWords ["unsafe".data] lowered

/-- Tier 3 cue `has_vulnerable`. -/
def hasVulnerable (lowered : List Char) : Bool :=
  searchWords ["vulnerable".data] lowered

/-- Tier 3 cue `has_vulnerability` (matches `vulnerability` or
`vulnerabilities`). -/
def hasVulnerability (lowered : List Char) : Bool :=
  searchWords ["vulnerability".data] lowered || searchWords ["vulnerabilities".data] lowered

/-- Tier 3 cue `has_exploitable`. -/
def hasExploitable (lowered : List Char) : Bool :=
  searchWords ["exploitable".data] lowered

/-- Tier 3 cue `has_at_risk`. -/
def hasAtRisk (lowered : List Char) : Bool :=
  searchWords ["at".data, "risk".data] lowered

/-- Tier 3 cue `has_safe_word`. -/
def hasSafeWord (lowered : List Char) : Bool :=
  searchWords ["safe".data] lowered

/-- Tier 3 cue `has_secure_word`. -/
def hasSecureWord (lowered : List Char) : Bool :=
  searchWords ["secure".data] lowered

/-- Tier 3 cue `has_not_vulnerable`. -/
def hasNotVulnerable (lowered : List Char) : Bool :=
  searchWords ["not".data, "vulnerable".data] lowered

/-- Tier 3 cue `has_no_vuln`
(`\bno\s+(known\s+)?vulnerabilit(y|ies)\b`), expanded over the optional
group and the suffix alternation. -/
def hasNoVuln (lowered : List Char) : Bool :=
  searchWords ["no".data, "vulnerability".data] lowered ||
    searchWords ["no".data, "known".data, "vulnerability".data] lowered ||
      searchWords ["no".data, "vulnerabilities".data] lowered ||
        searchWords ["no".data, "known".data, "vulnerabilities".data] lowered

/-- Tier 3 `vulnerable_signal_raw`: any raw vulnerability cue. -/
def vulnerableSignalRaw (lowered : List Char) : Bool :=
  hasNotSafe lowered || hasUnsafe lowered || hasVulnerable lowered ||
    hasVulnerability lowered || hasExploitable lowered || hasAtRisk lowered

/-- Tier 3 `safe_negating_vuln`: cues explicitly negating vulnerability. -/
def safeNegatingVuln (lowered : List Char) : Bool :=
  hasNotVulnerable lowered || hasNoVuln lowered

/-- Tier 3 `vulnerable_signal`. -/
def vulnerableSignal (lowered : List Char) : Bool :=
  vulnerableSignalRaw lowered && !safeNegatingVuln lowered

/-- Tier 3 `positive_safe`. -/
def positiveSafe (lowered : List Char) : Bool :=
  (hasSafeWord lowered || hasSecureWord lowered || safeNegatingVuln lowered) &&
    !hasNotSafe lowered && !hasUnsafe lowered

/-- Tier 3 decision logic on the lowered full text. -/
def tier3 (lowered : List Char) : List Char :=
  if vulnerableSignal lowered && !positiveSafe lowered then "vulnerable".data
  else if positiveSafe lowered && !vulnerableSignal lowered then "safe".data
  else "unknown".data

/-- The non-empty, stripped lines of the (stripped) input text, as computed
at the top of `parse_verdict`. -/
def linesOf (text : String) : List (List Char) :=
  ((splitLinesPy (pyStrip text.data)).map pyStrip).filter (fun l => decide (l ≠ []))

/-- Embedding of `label_parser.parse_verdict`: tier 1 (strict first line),
then tier 2 (explicit whole-line marker, scanned bottom-up), then tier 3
(negation-aware lexical scan of the lowered text). -/
def parse_verdict (text : String) : String :=
  match linesOf text with
  | [] => "unknown"
  | first_line :: rest =>
    match tier1Result first_line with
    | some token => String.mk token
    | none =>
      match tier2Scan (first_line :: rest).reverse with
      | some lab => String.mk lab
      | none => String.mk (tier3 (pyLower (pyStrip text.data)))

/-! ## Metrics accumulator (`evaluation/metrics.py`) -/

/-- The `Metrics` dataclass: raw confusion counters (`ℕ`), derived float
metrics (modelled as `ℚ`), and the vestigial `Unknown` counter.  Field
defaults mirror the dataclass defaults. -/
structure Metrics where
  TP : Nat := 0
  TN : Nat := 0
  FP : Nat := 0
  FN : Nat := 0
  Incorrect : Nat := 0
  UNFN : Nat := 0
  Accuracy : ℚ := 0
  Precision : ℚ := 0
  Recall : ℚ := 0
  F1 : ℚ := 0
  Effective_F1 : ℚ := 0
  Abstention : ℚ := 0
  Coverage : ℚ := 0
  Unknown : Nat := 0
deriving DecidableEq, Repr

/-- A fresh accumulator, as constructed by `MetricTracker()` in the
runner. -/
def Metrics.init : Metrics := {}

/-- Embedding of `Metrics.add`.  Note the source compares the prediction
against the literal `"Unknwon"` and its final `else` branch (incrementing
`Unknown`) is commented out, so any other prediction, including the
lowercase `"unknown"` actually produced by the parser, changes nothing. -/
def Metrics.add (m : Metrics) (gold pred : String) : Metrics :=
  if pred = "vulnerable" then
    if gold = "vulnerable" then { m with TP := m.TP + 1 } else { m with FP := m.FP + 1 }
  else if pred = "safe" then
    if gold = "safe" then { m with TN := m.TN + 1 } else { m with FN := m.FN + 1 }
  else if pred = "Unknwon" then
    if gold = "safe" then { m with Incorrect := m.Incorrect + 1 }
    else { m with UNFN := m.UNFN + 1 }
  else m

/-- Embedding of `Metrics.compute`: derived metrics with guarded divisions
(Python `x / d if d else 0.0`).  The `Abstention` numerator is
`Incorrect + Unknown`, exactly as in the source body (its docstring says
`Incorrect + UNFN`). -/
def Metrics.compute (m : Metrics) : Metrics :=
  let total := m.TP + m.TN + m.FP + m.FN
  let accuracy : ℚ := if total ≠ 0 then ((m.TP : ℚ) + (m.TN : ℚ)) / (total : ℚ) else 0
  let precision : ℚ :=
    if m.TP + m.FP ≠ 0 then (m.TP : ℚ) / ((m.TP : ℚ) + (m.FP : ℚ)) else 0
  let recl : ℚ :=
    if m.TP + m.FN ≠ 0 then (m.TP : ℚ) / ((m.TP : ℚ) + (m.FN : ℚ)) else 0
  let f1 : ℚ :=
    if precision + recl ≠ 0 then 2 * precision * recl / (precision + recl) else 0
  let denom := m.TP + m.TN + m.FP + m.FN + m.Incorrect + m.UNFN
  let abstention : ℚ :=
    if denom ≠ 0 then ((m.Incorrect : ℚ) + (m.Unknown : ℚ)) / (denom : ℚ) else 0
  let coverage : ℚ := 1 - abstention
  let eff : ℚ := f1 * abstention
  { m with
      Accuracy := accuracy, Precision := precision, Recall := recl, F1 := f1,
      Abstention := abstention, Coverage := coverage, Effective_F1 := eff }

/-- Sum of the six scoring counters named by the spec invariant. -/
def Metrics.counterSum (m : Metrics) : Nat :=
  m.TP + m.TN + m.FP + m.FN + m.Incorrect + m.UNFN

/-! ## Run executor (`core/runner.py`, `_run_single` sample loop) -/

/-- One entry of the per-sample prediction log
(`{"id": i, "gold": gold, "pred": pred_label}`). -/
structure PredEntry where
  id : Nat
  gold : String
  pred : String
deriving DecidableEq, Repr

/-- What happens to one sample inside the `try` block: either prompting or
generation raises (the sample is skipped), or the model produces raw output
text (possibly empty). -/
inductive SampleEvent where
  | genFail
  | output (raw : String)
deriving DecidableEq, Repr

/-- Whether an event carries model output. -/
def SampleEvent.isOutput : SampleEvent → Bool
  | .genFail => false
  | .output _ => true

/-- The result of `_run_single` restricted to the fields the claims are
about: finalized metrics, the prediction log, and `total_samples`. -/
structure RunResult where
  metrics : Metrics
  preds : List PredEntry
  total_samples : Nat
deriving DecidableEq, Repr

/-- The per-sample loop of `_run_single`: samples are `(gold, event)`
pairs (gold already extracted), `i` is the 1-based `enumerate` index, and
`cancel i` is the value of `stop_requested or stop_flag` observed at the
top of iteration `i`.  Cancellation breaks; a generation failure skips the
sample; otherwise the raw output is parsed, the metrics updated, and the
prediction log extended. -/
def runLoop (cancel : Nat → Bool) :
    Nat → Metrics → List PredEntry → List (String × SampleEvent) → Metrics × List PredEntry
  | _, m, preds, [] => (m, preds)
  | i, m, preds, (gold, ev) :: rest =>
    if cancel i then (m, preds)
    else
      match ev with
      | .genFail => runLoop cancel (i + 1) m preds rest
      | .output raw =>
        let predLabel := parse_verdict raw
        runLoop cancel (i + 1) (m.add gold predLabel)
          (preds ++ [⟨i, gold, predLabel⟩]) rest

/-- Embedding of `_run_single`: run the sample loop from a fresh
accumulator, finalize the metrics, and record `total_samples` as the full
dataset length (computed before the loop in the source). -/
def runSingle (cancel : Nat → Bool) (samples : List (String × SampleEvent)) : RunResult :=
  let r := runLoop cancel 1 Metrics.init [] samples
  { metrics := r.1.compute, preds := r.2, total_samples := samples.length }

/-- Replaying a prediction log through a fresh accumulator: one `add` per
logged entry, in order. -/
def replay (entries : List PredEntry) : Metrics :=
  entries.foldl (fun m e => m.add e.gold e.pred) Metrics.init

/-- The prediction-log entries the loop produces, computed directly from
the sample list: the loop stops at the first cancelled index, skips failed
generations, and logs one entry per scored sample. -/
def scoredEntries (cancel : Nat → Bool) : Nat → List (String × SampleEvent) → List PredEntry
  | _, [] => []
  | i, (gold, ev) :: rest =>
    if cancel i then []
    else
      match ev with
      | .genFail => scoredEntries cancel (i + 1) rest
      | .output raw => ⟨i, gold, parse_verdict raw⟩ :: scoredEntries cancel (i + 1) rest

/-- A cancellation flag that becomes set after `k` samples have been
processed: the check at the top of iteration `i` observes `true` exactly
when `i > k`. -/
def cancelAfter (k : Nat) : Nat → Bool :=
  fun i => decide (k < i)

/-! ## Sample extraction and the `returns_label` dispatch (`core/runner.py`) -/

/-- The sample shapes the extraction step distinguishes: a dict with
optional `"code"`/`"label"` fields, a sequence of length ≥ 2, or anything
else (stringified). -/
inductive PySample where
  | dict (code : Option String) (label : Option String)
  | pair (code : String) (label : String)
  | other (str : String)
deriving DecidableEq, Repr

/-- Embedding of the extraction step of `_run_single`: returns
`(code, gold)`.  Dict samples default missing fields to `""` (gold is then
`"".strip().lower() = ""`); sequence samples take fields 0 and 1; anything
else stringifies the sample and sets gold to `"unknown"`. -/
def extractSample : PySample → String × String
  | .dict c l => (c.getD "", String.mk (pyLower (pyStrip (l.getD "").data)))
  | .pair c l => (c, String.mk (pyLower (pyStrip l.data)))
  | .other s => (s, "unknown")

/-- `SelfConsistency` (in `prompts/self_consistency.py`) defines no
`returns_label` attribute: the attribute is absent. -/
def selfConsistencyReturnsLabelAttr : Option Bool := none

/-- Embedding of `getattr(prompt_obj, "returns_label", False)` in
`_run_single`. -/
def getattrReturnsLabel (attr : Option Bool) : Bool :=
  attr.getD false

/-- The fixed instruction suffix appended in `_run_single` when
`force_label_stop` holds and the strategy does not return a label.  (The
apostrophe is spelled via `Char.ofNat 39`.) -/
def instructionSuffix : String :=
  "\n\nTASK: Classify the code" ++ String.mk [Char.ofNat 39] ++ "s security.\n" ++
    "On the FIRST LINE ONLY, output exactly one of these words: SAFE or VULNERABLE.\n" ++
      "Do not add any other words, punctuation, or symbols on that first line.\n" ++
        "If you want to explain your reasoning, you may write it starting from the SECOND line.\n"

/-- Embedding of the dispatch in `_run_single` (lines 247-282), for a
string-valued strategy result with `force_label_stop = True`: when
`returns_label` is false the suffix is appended and the model is called
again on the result; otherwise the strategy result itself becomes the raw
prediction text handed to the parser. -/
def resolvePred (returnsLabel : Bool) (result : String) (generate : String → String) : String :=
  if returnsLabel = false then
    generate (String.mk (pyRstrip result.data) ++ instructionSuffix)
  else result

/-- A counter state reached through the accumulator API: one
`add("vulnerable", "Unknwon")` call (the only spelling the source branch
accepts) from a fresh accumulator, giving `UNFN = 1` and all other scoring
counters `0`. -/
def unfnState : Metrics :=
  Metrics.add Metrics.init "vulnerable" "Unknwon"

/-! ## Theorems -/

/-- Characters the parser counts as alphabetic are never whitespace. -/
theorem alpha_not_space (c : Char) (h : c.isAlpha = true) : pyIsSpace c = false := by
  have hne : ∀ d : Char, d.isAlpha = false → decide (c = d) = false := by
    intro d hd
    refine decide_eq_false ?_
    intro he
    rw [he, hd] at h
    exact Bool.false_ne_true h
  simp only [pyIsSpace]
  rw [hne ' ' (by decide), hne '\t' (by decide), hne '\n' (by decide), hne '\r' (by decide), hne (Char.ofNat 11) (by decide), hne (Char.ofNat 12) (by decide)]
  rfl

/-- Splitting a non-empty, whitespace-free character list on whitespace
yields that single word (with the pending accumulator prepended). -/
theorem pySplitWsAux_no_space (l : List Char) (hl : ∀ c ∈ l, pyIsSpace c = false) (cur : List Char) (hcur : ¬(cur = [] ∧ l = [])) : pySplitWsAux l cur = [cur.reverse ++ l] := by
  induction l generalizing cur with
  | nil =>
    simp only [pySplitWsAux]
    have : cur ≠ [] := by
      intro h
      exact hcur ⟨h, rfl⟩
    simp [this]
  | cons c cs ih =>
    have hc : pyIsSpace c = false := hl c (List.mem_cons_self c cs)
    simp only [pySplitWsAux, hc, Bool.false_eq_true, if_false]
    have := ih (fun x hx => hl x (List.mem_cons_of_mem c hx)) (c :: cur) (by simp)
    rw [this]
    simp

/-- `str.split()` of a non-empty word with no whitespace is the
one-element list containing it. -/
theorem pySplitWs_single (l : List Char) (hne : l ≠ []) (hl : ∀ c ∈ l, pyIsSpace c = false) : pySplitWs l = [l] := by
  have := pySplitWsAux_no_space l hl [] (by simp [hne])
  simpa [pySplitWs] using this

/-- Tier 1 accepts a first line made of a non-empty alphabetic word
followed by non-alphabetic, non-whitespace trailing characters, whenever
the lowercased word is `safe` or `vulnerable`, and returns the lowercased
word. -/
theorem tier1Result_word_punct (w p : List Char) (hw : w ≠ []) (hwa : ∀ c ∈ w, c.isAlpha = true) (hp : ∀ c ∈ p, c.isAlpha = false ∧ pyIsSpace c = false) (hlab : pyLower w = "safe".data ∨ pyLower w = "vulnerable".data) : tier1Result (w ++ p) = some (pyLower w) := by
  have hsplit : pySplitWs (w ++ p) = [w ++ p] := by
    apply pySplitWs_single
    · intro h
      exact hw (List.append_eq_nil.mp h).1
    · intro c hc
      rcases List.mem_append.mp hc with h | h
      · exact alpha_not_space c (hwa c h)
      · exact (hp c h).2
  have hfilter : (w ++ p).filter Char.isAlpha = w := by
    rw [List.filter_append]
    have h1 : w.filter Char.isAlpha = w := List.filter_eq_self.mpr hwa
    have h2 : p.filter Char.isAlpha = [] := by
      rw [List.filter_eq_nil_iff]
      intro c hc
      simp [(hp c hc).1]
    rw [h1, h2, List.append_nil]
  simp only [tier1Result, hsplit, List.length_cons, List.length_nil]
  rw [hfilter]
  have : pyLower w = "safe".data ∨ pyLower w = "vulnerable".data := hlab
  simp only [pyLower] at this ⊢
  simp [this]

/-- The sample loop equals a fold of `add` over the scored entries, and
the prediction log accumulates exactly those entries. -/
theorem runLoop_eq (cancel : Nat → Bool) (samples : List (String × SampleEvent)) : ∀ (i : Nat) (m : Metrics) (preds : List PredEntry), runLoop cancel i m preds samples = ((scoredEntries cancel i samples).foldl (fun acc e => acc.add e.gold e.pred) m, preds ++ scoredEntries cancel i samples) := by
  induction samples with
  | nil => intro i m preds; simp [runLoop, scoredEntries]
  | cons s rest ih =>
    intro i m preds
    obtain ⟨gold, ev⟩ := s
    by_cases hc : cancel i
    · simp [runLoop, scoredEntries, hc]
    · cases ev with
      | genFail => simp [runLoop, scoredEntries, hc, ih]
      | output raw =>
        simp only [runLoop, scoredEntries, hc, Bool.false_eq_true, if_false]
        rw [ih]
        simp [List.foldl_cons]

/-- Finalizing the metrics leaves the six scoring counters unchanged. -/
theorem compute_counters (m : Metrics) : (m.compute).TP = m.TP ∧ (m.compute).TN = m.TN ∧ (m.compute).FP = m.FP ∧ (m.compute).FN = m.FN ∧ (m.compute).Incorrect = m.Incorrect ∧ (m.compute).UNFN = m.UNFN :=
  ⟨rfl, rfl, rfl, rfl, rfl, rfl⟩

/-- Once the cancellation index is passed, no further sample is scored. -/
theorem scoredEntries_stop (k i : Nat) (h : k < i) (samples : List (String × SampleEvent)) : scoredEntries (cancelAfter k) i samples = [] := by
  cases samples with
  | nil => rfl
  | cons s rest =>
    obtain ⟨gold, ev⟩ := s
    simp [scoredEntries, cancelAfter, h]

/-- With the flag set after `k` samples, starting from index `i ≤ k` with
enough output-producing samples, exactly `k + 1 - i` samples are scored. -/
theorem scoredEntries_run (k : Nat) (samples : List (String × SampleEvent)) : ∀ i : Nat, i ≤ k → k + 1 - i ≤ samples.length → ((samples.take (k + 1 - i)).all fun s => s.2.isOutput) = true → (scoredEntries (cancelAfter k) i samples).length = k + 1 - i := by
  induction samples with
  | nil =>
    intro i hik hlen _
    simp only [List.length_nil, Nat.le_zero] at hlen
    omega
  | cons s rest ih =>
    intro i hik hlen hout
    obtain ⟨gold, ev⟩ := s
    have hnc : cancelAfter k i = false := by
      simp [cancelAfter]
      omega
    have hm : k + 1 - i = (k - i) + 1 := by omega
    rw [hm] at hout
    simp only [List.take_succ_cons, List.all_cons, Bool.and_eq_true] at hout
    obtain ⟨hev, hrest⟩ := hout
    cases ev with
    | genFail => simp [SampleEvent.isOutput] at hev
    | output raw =>
      simp only [scoredEntries, hnc, Bool.false_eq_true, if_false, List.length_cons]
      by_cases hike : i = k
      · subst hike
        rw [scoredEntries_stop i (i + 1) (Nat.lt_succ_self i) rest]
        simp
      · have hik2 : i + 1 ≤ k := by omega
        have hlen2 : k + 1 - (i + 1) ≤ rest.length := by
          simp only [List.length_cons] at hlen
          omega
        have hout2 : ((rest.take (k + 1 - (i + 1))).all fun s => s.2.isOutput) = true := by
          have : k + 1 - (i + 1) = k - i := by omega
          rw [this]
          exact hrest
        rw [ih (i + 1) hik2 hlen2 hout2]
        omega

/-- Claim C1: with the prediction `"unknown"` actually produced by the
parser, `Metrics.add` changes no counter at all: the branch compares
against the misspelled literal `"Unknwon"` and the fallback increment is
commented out, so the sample is silently dropped, for gold `"safe"` and
gold `"vulnerable"` alike. -/
theorem add_unknown_silently_dropped : Metrics.add Metrics.init "safe" "unknown" = Metrics.init ∧ Metrics.add Metrics.init "vulnerable" "unknown" = Metrics.init ∧ Metrics.add Metrics.init "safe" "garbage" = Metrics.init := by
  refine ⟨?_, ?_, ?_⟩ <;> rfl

/-- Claim C2: at the reachable state with `UNFN = 1` and all other
scoring counters `0`, the code computes `Abstention = 0` and
`Coverage = 1`, while the specified formula
`(Incorrect+UNFN)/(TP+TN+FP+FN+Incorrect+UNFN)` equals `1`: the source
numerator uses the never-incremented `Unknown` field instead of `UNFN`. -/
theorem abstention_numerator_wrong : unfnState.UNFN = 1 ∧ unfnState.counterSum = 1 ∧ (unfnState.compute).Abstention = 0 ∧ (unfnState.compute).Coverage = 1 ∧ ((unfnState.Incorrect : ℚ) + (unfnState.UNFN : ℚ)) / ((unfnState.TP : ℚ) + (unfnState.TN : ℚ) + (unfnState.FP : ℚ) + (unfnState.FN : ℚ) + (unfnState.Incorrect : ℚ) + (unfnState.UNFN : ℚ)) = 1 := by
  have h : unfnState = { UNFN := 1 } := by rfl
  refine ⟨by rw [h], by rw [h]; rfl, ?_, ?_, ?_⟩ <;> rw [h] <;> norm_num [Metrics.compute, Metrics.counterSum]

/-- Claim C3: a dataset sample that reaches the parse-and-add step with an
`"unknown"` verdict (here: an empty model response) leaves the counter sum
at `0` even though one sample was scored and logged, so the sum undercounts
the scored samples. -/
theorem counter_sum_misses_unknown : (runSingle (fun _ => false) [("safe", SampleEvent.output "")]).preds.length = 1 ∧ ((runSingle (fun _ => false) [("safe", SampleEvent.output "")]).metrics).counterSum = 0 := by
  refine ⟨rfl, rfl⟩

/-- Claim C4: after finalization `Effective_F1` is exactly
`F1 * Abstention` (not `F1 * Coverage`), for every counter state. -/
theorem effectiveF1_eq_f1_mul_abstention (m : Metrics) : (m.compute).Effective_F1 = (m.compute).F1 * (m.compute).Abstention := rfl

/-- Claim C5: whenever the first non-empty (stripped) line of the input is
a non-empty alphabetic word whose lowercase form is `safe` or
`vulnerable`, followed only by non-alphabetic, non-whitespace trailing
punctuation, `parse_verdict` returns the lowercased word, whatever the
remaining lines contain; and a two-word first line such as
`SAFE VULNERABLE` does not satisfy tier 1. -/
theorem tier1_first_line_decides (text : String) (w p : List Char) (rest : List (List Char)) (h1 : linesOf text = (w ++ p) :: rest) (h2 : w ≠ []) (h3 : ∀ c ∈ w, c.isAlpha = true) (h4 : ∀ c ∈ p, c.isAlpha = false ∧ pyIsSpace c = false) (h5 : pyLower w = "safe".data ∨ pyLower w = "vulnerable".data) : parse_verdict text = String.mk (pyLower w) ∧ tier1Result "SAFE VULNERABLE".data = none := by
  constructor
  · have ht := tier1Result_word_punct w p h2 h3 h4 h5
    simp only [parse_verdict, h1, ht]
  · rfl

/-- Witness for C5: the first line `Safe.` decides the verdict even though
the rest of the text mentions `vulnerable`. -/
theorem tier1_first_line_decides_witness : parse_verdict "Safe.\nbut the rest claims vulnerable" = String.mk (pyLower "Safe".data) ∧ tier1Result "SAFE VULNERABLE".data = none :=
  tier1_first_line_decides "Safe.\nbut the rest claims vulnerable" "Safe".data ".".data ["but the rest claims vulnerable".data] (by decide) (by decide) (by decide) (by decide) (by decide)

/-- Claim C6: on `"Final answer: this code is not safe"` the tier-2
whole-line pattern matches no line, the tier-3 `not safe` cue fires with
no positive safe signal, and the parser returns `vulnerable`. -/
theorem final_answer_not_safe_is_vulnerable : parse_verdict "Final answer: this code is not safe" = "vulnerable" ∧ tier2Scan (linesOf "Final answer: this code is not safe").reverse = none ∧ hasNotSafe (pyLower (pyStrip "Final answer: this code is not safe".data)) = true ∧ positiveSafe (pyLower (pyStrip "Final answer: this code is not safe".data)) = false ∧ vulnerableSignal (pyLower (pyStrip "Final answer: this code is not safe".data)) = true := by
  refine ⟨?_, ?_, ?_, ?_, ?_⟩ <;> rfl

/-- Claim C7: replaying the prediction log of a finished run through a
fresh accumulator, one `add` per logged entry in order, reproduces the six
scoring counters stored in the run record, for every cancellation schedule
and sample list. -/
theorem replay_reproduces_counters (cancel : Nat → Bool) (samples : List (String × SampleEvent)) : (replay ((runSingle cancel samples).preds)).TP = ((runSingle cancel samples).metrics).TP ∧ (replay ((runSingle cancel samples).preds)).TN = ((runSingle cancel samples).metrics).TN ∧ (replay ((runSingle cancel samples).preds)).FP = ((runSingle cancel samples).metrics).FP ∧ (replay ((runSingle cancel samples).preds)).FN = ((runSingle cancel samples).metrics).FN ∧ (replay ((runSingle cancel samples).preds)).Incorrect = ((runSingle cancel samples).metrics).Incorrect ∧ (replay ((runSingle cancel samples).preds)).UNFN = ((runSingle cancel samples).metrics).UNFN := by
  have h := runLoop_eq cancel samples 1 Metrics.init []
  have hp : (runSingle cancel samples).preds = scoredEntries cancel 1 samples := by
    simp [runSingle, h]
  have hm : (runSingle cancel samples).metrics = ((scoredEntries cancel 1 samples).foldl (fun acc e => acc.add e.gold e.pred) Metrics.init).compute := by
    simp [runSingle, h]
  obtain ⟨hTP, hTN, hFP, hFN, hI, hU⟩ := compute_counters ((scoredEntries cancel 1 samples).foldl (fun acc e => acc.add e.gold e.pred) Metrics.init)
  rw [hp, hm]
  exact ⟨hTP.symm, hTN.symm, hFP.symm, hFN.symm, hI.symm, hU.symm⟩

/-- Claim C8: if the cancellation flag becomes set after `k` samples of an
`n`-sample dataset (`k < n`) and the first `k` samples produce model
output, the run record reports `total_samples = n`, its prediction log has
exactly `k` entries, and its metrics are exactly the finalization of the
replay of those `k` entries (the remaining `n - k` samples contribute
nothing). -/
theorem cancellation_truncates (k n : Nat) (samples : List (String × SampleEvent)) (hn : samples.length = n) (hk : k < n) (hout : ((samples.take k).all fun s => s.2.isOutput) = true) : (runSingle (cancelAfter k) samples).total_samples = n ∧ (runSingle (cancelAfter k) samples).preds.length = k ∧ (runSingle (cancelAfter k) samples).metrics = (replay ((runSingle (cancelAfter k) samples).preds)).compute := by
  have h := runLoop_eq (cancelAfter k) samples 1 Metrics.init []
  have hp : (runSingle (cancelAfter k) samples).preds = scoredEntries (cancelAfter k) 1 samples := by
    simp [runSingle, h]
  have hm : (runSingle (cancelAfter k) samples).metrics = ((scoredEntries (cancelAfter k) 1 samples).foldl (fun acc e => acc.add e.gold e.pred) Metrics.init).compute := by
    simp [runSingle, h]
  refine ⟨by simp [runSingle, hn], ?_, ?_⟩
  · rw [hp]
    rcases Nat.eq_zero_or_pos k with hk0 | hkpos
    · subst hk0
      rw [scoredEntries_stop 0 1 (by omega) samples]
      rfl
    · have hlen : k + 1 - 1 ≤ samples.length := by omega
      have hout2 : ((samples.take (k + 1 - 1)).all fun s => s.2.isOutput) = true := by
        rw [Nat.add_sub_cancel]
        exact hout
      have := scoredEntries_run k samples 1 hkpos hlen hout2
      simpa using this
  · rw [hm, hp]
    rfl

/-- Witness for C8: flag set after 1 of 3 samples; the record reports all
3 samples but logs and counts only the first. -/
theorem cancellation_truncates_witness : (runSingle (cancelAfter 1) [("safe", SampleEvent.output "SAFE"), ("vulnerable", SampleEvent.output "VULNERABLE"), ("safe", SampleEvent.genFail)]).total_samples = 3 ∧ (runSingle (cancelAfter 1) [("safe", SampleEvent.output "SAFE"), ("vulnerable", SampleEvent.output "VULNERABLE"), ("safe", SampleEvent.genFail)]).preds.length = 1 ∧ (runSingle (cancelAfter 1) [("safe", SampleEvent.output "SAFE"), ("vulnerable", SampleEvent.output "VULNERABLE"), ("safe", SampleEvent.genFail)]).metrics = (replay ((runSingle (cancelAfter 1) [("safe", SampleEvent.output "SAFE"), ("vulnerable", SampleEvent.output "VULNERABLE"), ("safe", SampleEvent.genFail)]).preds)).compute :=
  cancellation_truncates 1 3 [("safe", SampleEvent.output "SAFE"), ("vulnerable", SampleEvent.output "VULNERABLE"), ("safe", SampleEvent.genFail)] rfl (by decide) (by decide)

/-- Claim C9 counterexample: a dict sample with no `"label"` field yields
gold `""` (the stripped-lowercased default), not `"unknown"` as claimed. -/
theorem gold_default_empty_not_unknown : (extractSample (PySample.dict none none)).2 = "" ∧ (extractSample (PySample.dict none none)).2 ≠ "unknown" := by
  exact ⟨rfl, by decide⟩

/-- Claim C9 (amended): extraction is total on the modelled sample shapes
and never raises; a dict sample defaults a missing `"code"` to `""` and a
missing `"label"` to gold `""` (not `"unknown"`); sequence samples use
their first two fields; any other sample yields its stringified form as
code and gold `"unknown"`. -/
theorem extract_total_defaults (c : Option String) (l s : String) : extractSample (PySample.dict c none) = (c.getD "", "") ∧ extractSample (PySample.dict none (some l)) = ("", String.mk (pyLower (pyStrip l.data))) ∧ extractSample (PySample.pair s l) = (s, String.mk (pyLower (pyStrip l.data))) ∧ extractSample (PySample.other s) = (s, "unknown") :=
  ⟨rfl, rfl, rfl, rfl⟩

/-- Claim C10: `SelfConsistency` defines no `returns_label` attribute, so
the runner's `getattr` default makes the flag `False`; its returned label
`"SAFE"` is therefore re-wrapped with the instruction suffix and sent to
the model again, and the final verdict follows the second model call
(here `vulnerable`) instead of the returned label.  Had the flag been
`True`, the label would have been passed directly to the parser, which
maps `SAFE`/`VULNERABLE`/`UNKNOWN` to the lowercase verdicts. -/
theorem self_consistency_label_resent : getattrReturnsLabel selfConsistencyReturnsLabelAttr = false ∧ parse_verdict (resolvePred (getattrReturnsLabel selfConsistencyReturnsLabelAttr) "SAFE" (fun _ => "VULNERABLE")) = "vulnerable" ∧ parse_verdict (resolvePred true "SAFE" (fun _ => "VULNERABLE")) = "safe" ∧ parse_verdict "SAFE" = "safe" ∧ parse_verdict "VULNERABLE" = "vulnerable" ∧ parse_verdict "UNKNOWN" = "unknown" := by
  refine ⟨rfl, ?_, ?_, ?_, ?_, ?_⟩ <;> rfl

end PromptAudit
